import Mathlib

/-!
Verification of the transparent-proxy repository (Go) against its
natural-language specification.  The Go sources are shallowly embedded:
pure helpers become Lean functions, effectful code (socket reads, dials,
goroutines) is modelled by explicit result parameters, action traces, or a
step relation.  Go strings are Lean `String`s (char-level model of Go's
byte-level operations; all inputs of interest are ASCII), byte slices are
`List Nat` with values reduced mod 256 where the code truncates, and Go
`error` results are `Except`.
-/

namespace Proxy

/-! ## String helpers (models of Go `strings` functions used by the code).
All inputs the claims exercise are ASCII, so case mapping and whitespace
are modelled at the ASCII level. -/

/-- ASCII lower-casing of one character (model of Go `unicode.ToLower`). -/
def toLowerChar (c : Char) : Char :=
  if 65 ≤ c.toNat ∧ c.toNat ≤ 90 then Char.ofNat (c.toNat + 32) else c

/-- ASCII upper-casing of one character (model of Go `unicode.ToUpper`). -/
def toUpperChar (c : Char) : Char :=
  if 97 ≤ c.toNat ∧ c.toNat ≤ 122 then Char.ofNat (c.toNat - 32) else c

/-- Model of Go `strings.ToLower`. -/
def strToLower (s : String) : String := String.mk (s.data.map toLowerChar)

/-- Model of Go `strings.ToUpper`. -/
def strToUpper (s : String) : String := String.mk (s.data.map toUpperChar)

/-- ASCII whitespace (the characters Go `unicode.IsSpace` accepts in ASCII). -/
def isSpaceChar (c : Char) : Bool :=
  c = ' ' || c = '\t' || c = '\n' || c = '\x0b' || c = '\x0c' || c = '\r'

/-- Model of Go `strings.TrimSpace`. -/
def strTrim (s : String) : String :=
  String.mk (((s.data.dropWhile isSpaceChar).reverse.dropWhile isSpaceChar).reverse)

/-- Split a character list at every occurrence of `sep`
(model of Go `strings.Split` with a one-character separator). -/
def splitOnChar (sep : Char) : List Char → List (List Char)
  | [] => [[]]
  | c :: rest =>
    let r := splitOnChar sep rest
    if c = sep then [] :: r
    else
      match r with
      | [] => [[c]]
      | h :: t => (c :: h) :: t

/-- Model of Go `strings.Split(s, sep)` for a one-character separator,
returning strings. -/
def strSplit (s : String) (sep : Char) : List String :=
  (splitOnChar sep s.data).map String.mk

/-- Model of Go `strings.HasSuffix`. -/
def hasSuffix (s suffix : String) : Bool :=
  suffix.data.reverse.isPrefixOf s.data.reverse

/-- Model of Go `strings.EqualFold` (ASCII simple case folding). -/
def equalFold (a b : String) : Bool :=
  strToLower a == strToLower b

/-- Helper for `strContains`: does `needle` occur as a contiguous sublist of `hay`? -/
def containsSub (hay needle : List Char) : Bool :=
  match hay with
  | [] => needle.isEmpty
  | c :: rest => needle.isPrefixOf (c :: rest) || containsSub rest needle

/-- Model of Go `strings.Contains`. -/
def strContains (s sub : String) : Bool :=
  containsSub s.data sub.data

/-! ## Policies and rule types (src/config/config.go, src/rules/parser.go)

Go defines `Policy` and `RuleType` as string types; we keep them as
strings with the same constants. -/

def PolicyProxy : String := "PROXY"

def PolicyDirect : String := "DIRECT"

def PolicyReject : String := "REJECT"

def RuleTypeDomain : String := "DOMAIN"

def RuleTypeDomainSuffix : String := "DOMAIN-SUFFIX"

def RuleTypeDomainKeyword : String := "DOMAIN-KEYWORD"

def RuleTypeIPCIDR : String := "IP-CIDR"

def RuleTypeIPCIDR6 : String := "IP-CIDR6"

def RuleTypeMatch : String := "MATCH"

/-! ## IP addresses and CIDR networks (model of Go `net.IP`, `net.IPNet`)

A Go `net.IP` is a byte slice of length 4 or 16; we use `List Nat`.
`nil` IPs are represented by `Option`. -/

/-- The 12-byte head of an IPv4-in-IPv6 address (Go `v4InV6Prefix`). -/
def v4InV6Head : List Nat := [0, 0, 0, 0, 0, 0, 0, 0, 0, 0, 0xff, 0xff]

/-- Model of Go `net.IP.To4`: an IPv4 address in 4-byte or 16-byte form
is converted to 4-byte form, otherwise `none` (Go returns nil). -/
def ipTo4 (ip : List Nat) : Option (List Nat) :=
  if ip.length = 4 then some ip
  else if ip.length = 16 ∧ ip.take 12 = v4InV6Head then some (ip.drop 12)
  else none

/-- Model of Go `net.IPNet`: the network address together with its mask. -/
structure IPNet where
  ip : List Nat
  mask : List Nat
deriving DecidableEq, Repr

/-- Model of Go `net.networkNumberAndMask`. -/
def networkNumberAndMask (nip m : List Nat) : Option (List Nat × List Nat) :=
  let ip4 : Option (List Nat) :=
    match ipTo4 nip with
    | some x => some x
    | none => if nip.length = 16 then some nip else none
  match ip4 with
  | none => none
  | some ip =>
    if m.length = 4 then (if ip.length = 4 then some (ip, m) else none)
    else if m.length = 16 then
      (if ip.length = 4 then some (ip, m.drop 12) else some (ip, m))
    else none

/-- Model of the byte-wise masked comparison loop inside `net.IPNet.Contains`. -/
def maskedEq : List Nat → List Nat → List Nat → Bool
  | [], _, _ => true
  | _ :: _, [], _ => true
  | _ :: _, _ :: _, [] => true
  | n :: ns, m :: ms, i :: is => (n.land m == i.land m) && maskedEq ns ms is

/-- Model of Go `net.IPNet.Contains`. -/
def IPNet.contains (n : IPNet) (ip : List Nat) : Bool :=
  match networkNumberAndMask n.ip n.mask with
  | none => false
  | some (nn, m) =>
    let x := match ipTo4 ip with
      | some x => x
      | none => ip
    if x.length ≠ nn.length then false
    else maskedEq nn m x

/-! ## Rules and the matcher (src/rules/parser.go lines 11-29, src/unnamed/part_006) -/

/-- Model of `rules.Rule` (src/rules/parser.go): type, raw value, policy,
and the parsed network for IP-CIDR kinds. -/
structure Rule where
  type : String
  value : String
  policy : String
  network : Option IPNet
deriving DecidableEq, Repr

/-- Model of `rules.Matcher`: an ordered rule list. -/
structure Matcher where
  rules : List Rule
deriving DecidableEq, Repr

/-- Model of `rules.MatchResult`. -/
structure MatchResult where
  policy : String
  rule : Option Rule
deriving DecidableEq, Repr

/-- Model of `Matcher.matchRule` (src/unnamed/part_006 lines 48-80).
The `domain` argument is the already-lowercased domain passed by `Match`. -/
def Matcher.matchRule (rule : Rule) (domain : String) (ip : Option (List Nat)) : Bool :=
  if rule.type = RuleTypeDomain then
    equalFold domain rule.value
  else if rule.type = RuleTypeDomainSuffix then
    let suffix := strToLower rule.value
    if domain = suffix then true
    else hasSuffix domain ("." ++ suffix)
  else if rule.type = RuleTypeDomainKeyword then
    strContains domain (strToLower rule.value)
  else if rule.type = RuleTypeIPCIDR ∨ rule.type = RuleTypeIPCIDR6 then
    match ip, rule.network with
    | some i, some n => n.contains i
    | _, _ => false
  else if rule.type = RuleTypeMatch then
    true
  else
    false

/-- The loop of `Matcher.Match` over the rule list. -/
def Matcher.matchLoop (rs : List Rule) (domain : String) (ip : Option (List Nat)) :
    MatchResult :=
  match rs with
  | [] => { policy := PolicyDirect, rule := none }
  | r :: rest =>
    if Matcher.matchRule r domain ip then { policy := r.policy, rule := some r }
    else Matcher.matchLoop rest domain ip

/-- Model of `Matcher.Match` (src/unnamed/part_006 lines 28-45): lowercase
the domain, test the rules in order, default to DIRECT with no rule. -/
def Matcher.Match (m : Matcher) (domain : String) (ip : Option (List Nat)) : MatchResult :=
  Matcher.matchLoop m.rules (strToLower domain) ip

/-- The rule `DOMAIN-SUFFIX,google.com,PROXY` of the spec's examples. -/
def googleSuffixProxyRule : Rule :=
  { type := RuleTypeDomainSuffix, value := "google.com", policy := PolicyProxy,
    network := none }

/-- The rule `IP-CIDR,0.0.0.0/0,DIRECT` of the spec's examples; its network
is what Go `net.ParseCIDR` yields on `0.0.0.0/0` (4-byte zero address and
zero mask). -/
def allV4DirectRule : Rule :=
  { type := RuleTypeIPCIDR, value := "0.0.0.0/0", policy := PolicyDirect,
    network := some { ip := [0, 0, 0, 0], mask := [0, 0, 0, 0] } }

/-- The DOMAIN-SUFFIX semantics in the spec's words: the domain equals the
rule value (case-insensitively), or the domain ends with "." followed by
the value. -/
def domainSuffixSpec (domain v : String) : Prop :=
  strToLower domain = strToLower v ∨
    hasSuffix (strToLower domain) ("." ++ strToLower v) = true

/-! ## CIDR text parsing (model of Go `net.ParseCIDR` as used by ParseRule)

The model covers the IPv4 textual forms.  Addresses Go would parse as
IPv6 text (`parseIPv6Zone`) are outside what the claims exercise and map
to `none`. -/

/-- Decimal value of a digit list (the accumulation Go `dtoi` performs). -/
def digitsVal (l : List Char) : Nat :=
  l.foldl (fun a c => a * 10 + (c.toNat - 48)) 0

/-- One dotted-decimal field of an IPv4 address, per Go `parseIPv4`:
non-empty digits, value at most 255, no extra leading zero. -/
def parseV4Field (s : String) : Option Nat :=
  let l := s.data
  if l ≠ [] ∧ l.all Char.isDigit ∧ (l.length ≤ 1 ∨ l.head? ≠ some '0') then
    if digitsVal l ≤ 255 then some (digitsVal l) else none
  else none

/-- Model of Go `net.parseIPv4` (which returns the 16-byte
IPv4-in-IPv6 form via `net.IPv4`). -/
def parseIPv4 (s : String) : Option (List Nat) :=
  match strSplit s '.' with
  | [a, b, c, d] =>
    match parseV4Field a, parseV4Field b, parseV4Field c, parseV4Field d with
    | some x, some y, some z, some w => some (v4InV6Head ++ [x, y, z, w])
    | _, _, _, _ => none
  | _ => none

/-- Byte `i` of a 32-bit mask with `ones` leading one bits
(model of Go `net.CIDRMask`). -/
def maskByte (ones i : Nat) : Nat :=
  let k := min 8 (ones - 8 * i)
  256 - 2 ^ (8 - k)

/-- Model of Go `net.CIDRMask(ones, 32)`. -/
def cidrMask (ones : Nat) : List Nat :=
  [maskByte ones 0, maskByte ones 1, maskByte ones 2, maskByte ones 3]

/-- Model of Go `net.IP.Mask`: byte-wise AND after aligning a 4-byte mask
with a 16-byte IPv4-in-IPv6 address (and conversely); Go returns nil on a
length mismatch, modelled as `[]`. -/
def ipMask (ip mask : List Nat) : List Nat :=
  let mask2 :=
    if mask.length = 16 ∧ ip.length = 4 ∧ mask.take 12 = List.replicate 12 0xff then
      mask.drop 12
    else mask
  let ip2 :=
    if mask2.length = 4 ∧ ip.length = 16 ∧ ip.take 12 = v4InV6Head then
      ip.drop 12
    else ip
  if ip2.length ≠ mask2.length then []
  else List.zipWith (fun a b => a.land b) ip2 mask2

/-- Split a character list at the first occurrence of `sep`
(model of Go `strings.IndexByte` slicing inside `net.ParseCIDR`). -/
def splitFirst (sep : Char) : List Char → Option (List Char × List Char)
  | [] => none
  | c :: rest =>
    if c = sep then some ([], rest)
    else
      match splitFirst sep rest with
      | none => none
      | some (a, b) => some (c :: a, b)

/-- Model of the `*net.IPNet` result of Go `net.ParseCIDR` (IPv4 texts). -/
def parseCIDRgo (s : String) : Option IPNet :=
  match splitFirst '/' s.data with
  | none => none
  | some (addrChars, maskChars) =>
    match parseIPv4 (String.mk addrChars) with
    | none => none
    | some ip =>
      if maskChars ≠ [] ∧ maskChars.all Char.isDigit ∧ digitsVal maskChars ≤ 32 then
        some { ip := ipMask ip (cidrMask (digitsVal maskChars)),
               mask := cidrMask (digitsVal maskChars) }
      else none

/-! ## Rule parsing (src/rules/parser.go lines 46-99) -/

/-- Model of `rules.ParseRule`. -/
def ParseRule (ruleStr : String) : Except String Rule :=
  let s := strTrim ruleStr
  match strSplit s ',' with
  | [] => Except.error ("invalid rule format: " ++ s)
  | [_] => Except.error ("invalid rule format: " ++ s)
  | p0 :: p1 :: rest =>
    let ruleType := strToUpper (strTrim p0)
    let valuePolicy : Except String (String × String) :=
      if ruleType = RuleTypeMatch then Except.ok ("", strTrim p1)
      else
        match rest with
        | [] => Except.error ("invalid rule format, expected TYPE,VALUE,POLICY: " ++ s)
        | p2 :: _ => Except.ok (strTrim p1, strTrim p2)
    match valuePolicy with
    | Except.error e => Except.error e
    | Except.ok (value, policyStr) =>
      let policy := strToUpper policyStr
      if policy ≠ PolicyProxy ∧ policy ≠ PolicyDirect ∧ policy ≠ PolicyReject then
        Except.error ("invalid policy: " ++ policyStr)
      else if ruleType = RuleTypeIPCIDR ∨ ruleType = RuleTypeIPCIDR6 then
        match parseCIDRgo value with
        | none => Except.error ("invalid CIDR: " ++ value)
        | some network =>
          Except.ok { type := ruleType, value := value, policy := policy,
                      network := some network }
      else if ruleType = RuleTypeDomain ∨ ruleType = RuleTypeDomainSuffix ∨
          ruleType = RuleTypeDomainKeyword ∨ ruleType = RuleTypeMatch then
        Except.ok { type := ruleType, value := value, policy := policy, network := none }
      else
        Except.error ("unsupported rule type: " ++ ruleType)

instance instExceptDecEq {ε α : Type} [DecidableEq ε] [DecidableEq α] :
    DecidableEq (Except ε α) := fun
  | Except.ok a, Except.ok b =>
    if h : a = b then isTrue (by rw [h])
    else isFalse (by intro he; cases he; exact h rfl)
  | Except.ok _, Except.error _ => isFalse (by intro h; cases h)
  | Except.error _, Except.ok _ => isFalse (by intro h; cases h)
  | Except.error e, Except.error f =>
    if h : e = f then isTrue (by rw [h])
    else isFalse (by intro he; cases he; exact h rfl)

/-- Did an `Except` computation succeed? -/
def exceptIsOk {ε α : Type} : Except ε α → Bool
  | Except.ok _ => true
  | Except.error _ => false

/-- A policy token the parser accepts (after upper-casing). -/
def isValidPolicy (p : String) : Prop :=
  p = PolicyProxy ∨ p = PolicyDirect ∨ p = PolicyReject

/-! ## Upstream HTTP CONNECT (src/unnamed/part_000 lines 38-87 and 118-126) -/

/-- The parsed status line `http.ReadResponse` hands back: numeric code
and full status text. -/
structure HTTPResponse where
  statusCode : Nat
  status : String
deriving DecidableEq, Repr

/-- Model of `bufferedConn` (src/unnamed/part_000 lines 118-126): the bytes
the `bufio.Reader` read ahead while parsing the response headers, and the
bytes still to arrive on the underlying connection. -/
structure bufferedConn where
  buffered : List Nat
  conn : List Nat
deriving DecidableEq, Repr

/-- One `bufferedConn.Read` of up to `n` bytes: the buffered read-ahead is
served first; only once it is empty do bytes come off the underlying
connection. -/
def bufferedConn.read (c : bufferedConn) (n : Nat) : List Nat × bufferedConn :=
  if c.buffered ≠ [] then
    (c.buffered.take n, { buffered := c.buffered.drop n, conn := c.conn })
  else
    (c.conn.take n, { buffered := [], conn := c.conn.drop n })

/-- A sequence of reads with the given sizes: all delivered bytes in order,
and the final connection state. -/
def bufferedConn.readMany : bufferedConn → List Nat → List Nat × bufferedConn
  | c, [] => ([], c)
  | c, n :: rest =>
    let p := bufferedConn.read c n
    let q := bufferedConn.readMany p.2 rest
    (p.1 ++ q.1, q.2)

/-- Model of the tail of `connectHTTP` after `http.ReadResponse` succeeds
(src/unnamed/part_000 lines 79-87): on status 200 (`http.StatusOK`) the
underlying connection wrapped in `bufferedConn` is the tunnel, otherwise
the connection is closed (second component `true`) and an error naming the
upstream status text is returned.  `payload` is the byte stream the
upstream sends after its response headers, of which the reader has already
buffered `k` bytes during header parsing. -/
def connectHTTPFinish (resp : HTTPResponse) (payload : List Nat) (k : Nat) :
    Except String bufferedConn × Bool :=
  if resp.statusCode ≠ 200 then
    (Except.error ("CONNECT failed with status: " ++ resp.status), true)
  else
    (Except.ok { buffered := payload.take k, conn := payload.drop k }, false)

/-! ## Connection handling (src/proxy/transparent.go lines 75-164) -/

/-- A TCP address (model of `net.TCPAddr`): IP bytes and port. -/
structure Addr where
  ip : List Nat
  port : Nat
deriving DecidableEq, Repr

/-- The domain `handleConnection` passes to the matcher, computed from the
reverse-DNS lookup result (src/proxy/transparent.go lines 91-102): the
first returned name with a trailing dot removed; empty on lookup failure
or an empty name list. -/
def resolveDomain (lookup : Except Unit (List String)) : String :=
  match lookup with
  | Except.error _ => ""
  | Except.ok [] => ""
  | Except.ok (name :: _) =>
    match name.data.getLast? with
    | some c => if c = '.' then String.mk name.data.dropLast else name
    | none => name

/-- The trailing-dot stripping in the spec's words: remove a single
trailing dot if present. -/
def stripTrailingDotSpec (name : String) : String :=
  if hasSuffix name "." then String.mk name.data.dropLast else name

/-- The externally visible steps `handleConnection` can take. -/
inductive Action where
  | dialDirect (target : Addr)
  | dialUpstream (target : Addr)
  | relayData
  | closeClient
  | closeServer
  | crash
deriving DecidableEq, Repr

/-- Model of `handleConnection` (src/proxy/transparent.go lines 75-138) as
the trace of externally visible actions, with the effectful results
(original-destination recovery, reverse-DNS lookup, dial success) passed
as parameters.  The deferred closes run last in LIFO order.  `crash`
models the nil `serverConn.Close` dereference reached only if the matched
policy were none of the three constants (impossible for parser-produced
rules). -/
def handleConnection (hasUpstream : Bool) (origDst : Except String Addr)
    (lookup : Except Unit (List String)) (m : Matcher) (dialOk : Bool) :
    List Action :=
  match origDst with
  | Except.error _ => [Action.closeClient]
  | Except.ok dst =>
    let domain := resolveDomain lookup
    let result := Matcher.Match m domain (some dst.ip)
    if result.policy = PolicyReject then
      [Action.closeClient]
    else if result.policy = PolicyDirect then
      if dialOk then
        [Action.dialDirect dst, Action.relayData, Action.closeServer, Action.closeClient]
      else [Action.dialDirect dst, Action.closeClient]
    else if result.policy = PolicyProxy then
      if hasUpstream then
        if dialOk then
          [Action.dialUpstream dst, Action.relayData, Action.closeServer,
            Action.closeClient]
        else [Action.dialUpstream dst, Action.closeClient]
      else
        if dialOk then
          [Action.dialDirect dst, Action.relayData, Action.closeServer,
            Action.closeClient]
        else [Action.dialDirect dst, Action.closeClient]
    else [Action.crash]

/-- Model of `getOriginalDst` (src/proxy/transparent.go lines 141-164):
the file-descriptor acquisition and the two `SO_ORIGINAL_DST` getsockopt
attempts are passed as results (errnos as `Nat`). -/
def getOriginalDst (fileResult : Except String Unit) (v4 v6 : Except Nat Addr) :
    Except String Addr :=
  match fileResult with
  | Except.error e => Except.error ("failed to get file descriptor: " ++ e)
  | Except.ok _ =>
    match v4 with
    | Except.ok a => Except.ok a
    | Except.error _ =>
      match v6 with
      | Except.ok a => Except.ok a
      | Except.error _ =>
        Except.error "failed to get original destination for both IPv4 and IPv6"

/-! ## nftables redirect rules (src/iptables/iptables.go) -/

/-- The calling process's identity; Go `syscall.Getuid()` returns the real
uid, `syscall.Geteuid()` the effective uid. -/
structure ProcessCtx where
  realUid : Nat
  effectiveUid : Nat
deriving DecidableEq, Repr

/-- Model of Go `syscall.Getuid`. -/
def getuid (c : ProcessCtx) : Nat := c.realUid

/-- Model of Go `syscall.Geteuid`. -/
def geteuid (c : ProcessCtx) : Nat := c.effectiveUid

/-- Model of `binaryPort` (src/iptables/iptables.go lines 244-247):
network byte order, two bytes. -/
def binaryPort (port : Nat) : List Nat :=
  [port / 256 % 256, port % 256]

/-- Model of `binaryUint32` (src/iptables/iptables.go lines 249-257):
little-endian four bytes. -/
def binaryUint32 (v : Nat) : List Nat :=
  [v % 256, v / 256 % 256, v / 65536 % 256, v / 16777216 % 256]

/-- The fwmark constant (src/iptables/iptables.go line 21). -/
def fwMark : Nat := 1

/-- The nftables meta keys the manager uses. -/
inductive MetaKey where
  | l4proto
  | skuid
  | mark
deriving DecidableEq, Repr

/-- The nftables comparison operators the manager uses. -/
inductive CmpOp where
  | eq
  | neq
deriving DecidableEq, Repr

/-- The nftables payload bases the manager uses. -/
inductive PayloadBase where
  | transportHeader
deriving DecidableEq, Repr

/-- The nftables expressions the manager emits (mirrors the
`github.com/google/nftables/expr` constructors used in iptables.go). -/
inductive NftExpr where
  | metaGet (key : MetaKey) (register : Nat)
  | metaSet (key : MetaKey) (register : Nat)
  | cmp (op : CmpOp) (register : Nat) (data : List Nat)
  | payload (destRegister : Nat) (base : PayloadBase) (offset len : Nat)
  | immediate (register : Nat) (data : List Nat)
  | redir (protoMin protoMax : Nat)
deriving DecidableEq, Repr

/-- Model of `iptables.Manager` (the fields `addOutputRule` reads). -/
structure Manager where
  listenPort : Nat
  listenIP : List Nat
  ports : List Nat
  proxyUID : Nat
deriving DecidableEq, Repr

/-- Model of `NewManager` (src/iptables/iptables.go lines 36-48): ports and
the listen port truncated to uint16, and the proxy uid taken from
`syscall.Getuid()` (the real uid) truncated to uint32. -/
def NewManager (ctx : ProcessCtx) (listenPort : Nat) (targetPorts : List Nat) :
    Manager :=
  { listenPort := listenPort % 65536,
    listenIP := [127, 0, 0, 1],
    ports := targetPorts.map (fun p => p % 65536),
    proxyUID := getuid ctx % 4294967296 }

/-- Model of `Manager.addOutputRule` (src/iptables/iptables.go lines
114-177): the expression sequence of the per-port NAT redirect rule. -/
def addOutputRuleExprs (m : Manager) (dstPort : Nat) : List NftExpr :=
  [NftExpr.metaGet MetaKey.l4proto 1,
   NftExpr.cmp CmpOp.eq 1 [6],
   NftExpr.metaGet MetaKey.skuid 1,
   NftExpr.cmp CmpOp.neq 1 (binaryUint32 m.proxyUID),
   NftExpr.payload 1 PayloadBase.transportHeader 2 2,
   NftExpr.cmp CmpOp.eq 1 (binaryPort dstPort),
   NftExpr.immediate 1 (binaryUint32 fwMark),
   NftExpr.metaSet MetaKey.mark 1,
   NftExpr.immediate 1 (binaryPort m.listenPort),
   NftExpr.redir 1 1]

/-- The chain types the manager uses. -/
inductive ChainType where
  | nat
  | filter
deriving DecidableEq, Repr

/-- The chain hooks the manager uses. -/
inductive ChainHook where
  | output
  | prerouting
deriving DecidableEq, Repr

/-- An nftables chain as the manager creates it. -/
structure Chain where
  name : String
  ctype : ChainType
  hook : ChainHook
deriving DecidableEq, Repr

/-- The OUTPUT chain `Manager.Setup` creates (src/iptables/iptables.go
lines 86-94): a NAT-type chain hooked at the local-output point. -/
def setupOutputChain : Chain :=
  { name := "output", ctype := ChainType.nat, hook := ChainHook.output }

/-- The rules `Manager.Setup` adds to the OUTPUT chain: one redirect rule
per target port, in order (src/iptables/iptables.go lines 96-102). -/
def Manager.setupRules (m : Manager) : List (Nat × List NftExpr) :=
  m.ports.map (fun p => (p, addOutputRuleExprs m p))

/-- The packet attributes the emitted expressions inspect or set. -/
structure Packet where
  l4proto : Nat
  skuid : Nat
  dport : Nat
  mark : Nat
deriving DecidableEq, Repr

/-- The value a meta-load places in its register. -/
def metaValue (key : MetaKey) (pkt : Packet) : List Nat :=
  match key with
  | MetaKey.l4proto => [pkt.l4proto % 256]
  | MetaKey.skuid => binaryUint32 pkt.skuid
  | MetaKey.mark => binaryUint32 pkt.mark

/-- Register-file update. -/
def updReg (regs : Nat → List Nat) (i : Nat) (v : List Nat) : Nat → List Nat :=
  fun j => if j = i then v else regs j

/-- Decode a little-endian 4-byte register value. -/
def decodeU32 (l : List Nat) : Nat :=
  match l with
  | [b0, b1, b2, b3] => b0 + 256 * b1 + 65536 * b2 + 16777216 * b3
  | _ => 0

/-- Decode a network-byte-order 2-byte register value. -/
def decodePortBE (l : List Nat) : Nat :=
  match l with
  | [b0, b1] => 256 * b0 + b1
  | _ => 0

/-- What one rule does to one packet. -/
inductive RuleOutcome where
  | noMatch (pkt : Packet)
  | redirected (pkt : Packet) (port : Nat)
deriving DecidableEq, Repr

/-- Semantics of the expression sequences the manager emits: evaluate left
to right over a packet and a register file; a failed comparison ends the
rule without matching; `redir` redirects to the port in its register. -/
def evalExprs : List NftExpr → (Nat → List Nat) → Packet → RuleOutcome
  | [], _, pkt => RuleOutcome.noMatch pkt
  | e :: rest, regs, pkt =>
    match e with
    | NftExpr.metaGet key r => evalExprs rest (updReg regs r (metaValue key pkt)) pkt
    | NftExpr.metaSet key r =>
      match key with
      | MetaKey.mark => evalExprs rest regs { pkt with mark := decodeU32 (regs r) }
      | _ => evalExprs rest regs pkt
    | NftExpr.cmp op r data =>
      (match op with
       | CmpOp.eq =>
         if regs r = data then evalExprs rest regs pkt else RuleOutcome.noMatch pkt
       | CmpOp.neq =>
         if regs r ≠ data then evalExprs rest regs pkt else RuleOutcome.noMatch pkt)
    | NftExpr.payload r base offset len =>
      if base = PayloadBase.transportHeader ∧ offset = 2 ∧ len = 2 then
        evalExprs rest (updReg regs r (binaryPort pkt.dport)) pkt
      else evalExprs rest regs pkt
    | NftExpr.immediate r data => evalExprs rest (updReg regs r data) pkt
    | NftExpr.redir rmin _ => RuleOutcome.redirected pkt (decodePortBE (regs rmin))

/-- The empty register file. -/
def regs0 : Nat → List Nat := fun _ => []

/-- The redirect rule's intended behaviour, as the spec words it: a TCP
packet to the target port whose socket owner is not the excluded uid is
redirected to the listen port with firewall mark 0x1 set; every other
packet is left alone. -/
def redirectRuleSpec (excludeUid listenPort dstPort : Nat) (pkt : Packet) :
    RuleOutcome :=
  if pkt.l4proto = 6 ∧ pkt.skuid ≠ excludeUid ∧ pkt.dport = dstPort then
    RuleOutcome.redirected { pkt with mark := 1 } listenPort
  else RuleOutcome.noMatch pkt

/-! ## The relay's concurrency structure (src/unnamed/part_000 lines
137-153 with src/proxy/transparent.go lines 132-137)

`Relay` starts one `io.Copy` goroutine per direction; each sends on a
2-slot buffered `done` channel when its copy returns (EOF or error).  The
parent receives once and returns, whereupon `handleConnection`'s deferred
closes shut both connections.  This is modelled as a transition system
over the two copier states, the channel occupancy, and whether the parent
has returned and closed both ends. -/

/-- State of one `io.Copy` direction. -/
inductive CopyState where
  | running
  | finished
deriving DecidableEq, Repr

/-- Global state of one relay: the two copy directions, the number of
messages buffered in the `done` channel, and whether `Relay` has returned
(after which both connections are closed by the deferred closes). -/
structure RelayState where
  copyAB : CopyState
  copyBA : CopyState
  doneCh : Nat
  closedBoth : Bool
deriving DecidableEq, Repr

/-- The state right after `Relay` spawns the two copiers. -/
def relayInit : RelayState :=
  { copyAB := CopyState.running, copyBA := CopyState.running, doneCh := 0,
    closedBoth := false }

/-- Interleaved execution steps of the relay's three tasks: either copy
direction finishes and sends on the channel (never blocking: capacity 2,
at most 2 sends), or the parent receives one message, returns, and the
deferred closes tear down both connections. -/
inductive RelayStep : RelayState → RelayState → Prop
  | finishAB : ∀ (b : CopyState) (n : Nat) (r : Bool),
      RelayStep ⟨CopyState.running, b, n, r⟩ ⟨CopyState.finished, b, n + 1, r⟩
  | finishBA : ∀ (a : CopyState) (n : Nat) (r : Bool),
      RelayStep ⟨a, CopyState.running, n, r⟩ ⟨a, CopyState.finished, n + 1, r⟩
  | recvAndClose : ∀ (a b : CopyState) (n : Nat),
      RelayStep ⟨a, b, n + 1, false⟩ ⟨a, b, n, true⟩

/-- States reachable from the relay's initial state. -/
inductive RelayReachable : RelayState → Prop
  | init : RelayReachable relayInit
  | step : ∀ s t, RelayReachable s → RelayStep s t → RelayReachable t

/-- Number of copy directions that have finished. -/
def RelayState.finishedCount (s : RelayState) : Nat :=
  (if s.copyAB = CopyState.finished then 1 else 0)
    + (if s.copyBA = CopyState.finished then 1 else 0)

end Proxy

namespace Proxy

/-! ## Theorems -/

/-- C1: `Matcher.Match` tests the rules in declaration order and returns the
policy and rule of the first rule that matches; on an empty list or no match
it returns policy DIRECT with no matched rule; and on rules
`[DOMAIN-SUFFIX google.com -> PROXY, IP-CIDR 0.0.0.0/0 -> DIRECT]` matching
domain `www.google.com` with ip `8.8.8.8` yields PROXY from the first rule. -/
theorem C1_match_first_rule_wins :
    (∀ (m : Matcher) (domain : String) (ip : Option (List Nat)),
      Matcher.Match m domain ip =
        (match m.rules.find? (fun r => Matcher.matchRule r (strToLower domain) ip) with
         | some r => { policy := r.policy, rule := some r }
         | none => { policy := PolicyDirect, rule := none }))
    ∧ (∀ (domain : String) (ip : Option (List Nat)),
        Matcher.Match ⟨[]⟩ domain ip = { policy := PolicyDirect, rule := none })
    ∧ Matcher.Match ⟨[googleSuffixProxyRule, allV4DirectRule]⟩ "www.google.com"
        (some [8, 8, 8, 8])
      = { policy := PolicyProxy, rule := some googleSuffixProxyRule } := by
  refine ⟨?_, ?_, by decide⟩
  · intro m domain ip
    show Matcher.matchLoop m.rules (strToLower domain) ip = _
    induction m.rules with
    | nil => rfl
    | cons r rest ih =>
      by_cases h : Matcher.matchRule r (strToLower domain) ip
      · simp [Matcher.matchLoop, List.find?_cons, h]
      · simp [Matcher.matchLoop, List.find?_cons, h, ih]
  · intro domain ip
    rfl

/-- C2 counterexample: `DOMAIN,example.com,PROXY,X` splits into 4
comma-separated fields, which differs from the required 3, yet `ParseRule`
accepts it (the claim would require an error and no rule). -/
theorem C2_counterexample_extra_fields :
    (strSplit (strTrim "DOMAIN,example.com,PROXY,X") ',').length = 4 ∧
    ¬ (exceptIsOk (ParseRule "DOMAIN,example.com,PROXY,X") = false) := by
  decide

/-- C2 (amended): `ParseRule` requires at least 2 comma-separated fields,
and at least 3 when the first field (trimmed, upper-cased) is not MATCH;
fields beyond the required 2 (MATCH shape) or 3 (TYPE shape) are ignored
rather than rejected.  A single-field line, or a non-MATCH line with
exactly 2 fields, returns an error and no rule. -/
theorem C2_parse_rule_field_shapes :
    (∀ (s p0 : String), strSplit (strTrim s) ',' = [p0] →
      exceptIsOk (ParseRule s) = false)
    ∧ (∀ (s p0 p1 : String), strSplit (strTrim s) ',' = [p0, p1] →
        strToUpper (strTrim p0) ≠ RuleTypeMatch →
        exceptIsOk (ParseRule s) = false)
    ∧ (∀ (s p0 p1 : String) (rest : List String),
        strSplit (strTrim s) ',' = p0 :: p1 :: rest →
        strToUpper (strTrim p0) = RuleTypeMatch →
        isValidPolicy (strToUpper (strTrim p1)) →
        ParseRule s = Except.ok
          { type := RuleTypeMatch, value := "",
            policy := strToUpper (strTrim p1), network := none })
    ∧ (∀ (s p0 p1 p2 : String) (rest : List String),
        strSplit (strTrim s) ',' = p0 :: p1 :: p2 :: rest →
        (strToUpper (strTrim p0) = RuleTypeDomain ∨
          strToUpper (strTrim p0) = RuleTypeDomainSuffix ∨
          strToUpper (strTrim p0) = RuleTypeDomainKeyword) →
        isValidPolicy (strToUpper (strTrim p2)) →
        ParseRule s = Except.ok
          { type := strToUpper (strTrim p0), value := strTrim p1,
            policy := strToUpper (strTrim p2), network := none })
    ∧ (∀ (s p0 p1 p2 : String) (rest : List String) (n : IPNet),
        strSplit (strTrim s) ',' = p0 :: p1 :: p2 :: rest →
        (strToUpper (strTrim p0) = RuleTypeIPCIDR ∨
          strToUpper (strTrim p0) = RuleTypeIPCIDR6) →
        isValidPolicy (strToUpper (strTrim p2)) →
        parseCIDRgo (strTrim p1) = some n →
        ParseRule s = Except.ok
          { type := strToUpper (strTrim p0), value := strTrim p1,
            policy := strToUpper (strTrim p2), network := some n }) := by
  refine ⟨?_, ?_, ?_, ?_, ?_⟩
  · intro s p0 heq
    simp only [ParseRule]
    rw [heq]
    rfl
  · intro s p0 p1 heq hne
    simp only [ParseRule]
    rw [heq]
    simp [hne, exceptIsOk]
  · intro s p0 p1 rest heq hm hpol
    have hc : ¬ (strToUpper (strTrim p1) ≠ PolicyProxy ∧
        strToUpper (strTrim p1) ≠ PolicyDirect ∧
        strToUpper (strTrim p1) ≠ PolicyReject) := by
      rcases hpol with h | h | h <;> simp [h]
    simp only [ParseRule]
    rw [heq]
    simp [hm, hc, RuleTypeMatch, RuleTypeIPCIDR, RuleTypeIPCIDR6]
  · intro s p0 p1 p2 rest heq hty hpol
    have hc : ¬ (strToUpper (strTrim p2) ≠ PolicyProxy ∧
        strToUpper (strTrim p2) ≠ PolicyDirect ∧
        strToUpper (strTrim p2) ≠ PolicyReject) := by
      rcases hpol with h | h | h <;> simp [h]
    simp only [ParseRule]
    rw [heq]
    rcases hty with h | h | h <;>
      simp [h, hc, RuleTypeMatch, RuleTypeDomain, RuleTypeDomainSuffix,
        RuleTypeDomainKeyword, RuleTypeIPCIDR, RuleTypeIPCIDR6]
  · intro s p0 p1 p2 rest n heq hty hpol hnet
    have hc : ¬ (strToUpper (strTrim p2) ≠ PolicyProxy ∧
        strToUpper (strTrim p2) ≠ PolicyDirect ∧
        strToUpper (strTrim p2) ≠ PolicyReject) := by
      rcases hpol with h | h | h <;> simp [h]
    simp only [ParseRule]
    rw [heq]
    rcases hty with h | h <;>
      simp [h, hc, hnet, RuleTypeMatch, RuleTypeIPCIDR, RuleTypeIPCIDR6]

/-- C2 witness: the amended theorem applied at the concrete line
`MATCH,direct`. -/
theorem C2_parse_rule_field_shapes_witness :
    ParseRule "MATCH,direct"
      = Except.ok { type := RuleTypeMatch, value := "",
                    policy := strToUpper (strTrim "direct"), network := none } :=
  C2_parse_rule_field_shapes.2.2.1 "MATCH,direct" "MATCH" "direct" []
    (by decide) (by decide) (Or.inr (Or.inl (by decide)))

/-- C7: a DOMAIN-SUFFIX rule with value `v` matches a domain exactly when
the domain equals `v` case-insensitively or ends with `"." ++ v`; in
particular `google.com` and `www.google.com` match value `google.com` and
`notgoogle.com` does not. -/
theorem C7_domain_suffix_semantics :
    (∀ (domain v policy : String),
      ((Matcher.Match
          ⟨[{ type := RuleTypeDomainSuffix, value := v, policy := policy,
              network := none }]⟩ domain none).rule
        = some { type := RuleTypeDomainSuffix, value := v, policy := policy,
                 network := none })
      ↔ domainSuffixSpec domain v)
    ∧ (Matcher.Match ⟨[googleSuffixProxyRule]⟩ "google.com" none).rule
        = some googleSuffixProxyRule
    ∧ (Matcher.Match ⟨[googleSuffixProxyRule]⟩ "www.google.com" none).rule
        = some googleSuffixProxyRule
    ∧ (Matcher.Match ⟨[googleSuffixProxyRule]⟩ "notgoogle.com" none).rule = none := by
  refine ⟨?_, by decide, by decide, by decide⟩
  intro domain v policy
  show (Matcher.matchLoop _ _ _).rule = _ ↔ _
  simp only [Matcher.matchLoop, Matcher.matchRule, domainSuffixSpec]
  by_cases h1 : strToLower domain = strToLower v
  · simp [h1, RuleTypeDomainSuffix, RuleTypeDomain]
  · by_cases h2 : hasSuffix (strToLower domain) ("." ++ strToLower v) = true
    · simp [h1, h2, RuleTypeDomainSuffix, RuleTypeDomain]
    · simp [h1, h2, RuleTypeDomainSuffix, RuleTypeDomain]

/-- Little-endian 4-byte encodings are injective below 2^32. -/
theorem binaryUint32_inj (a b : Nat) (ha : a < 4294967296) (hb : b < 4294967296) :
    binaryUint32 a = binaryUint32 b ↔ a = b := by
  constructor
  · intro h
    simp [binaryUint32] at h
    omega
  · intro h; rw [h]

/-- Big-endian 2-byte encodings are injective below 2^16. -/
theorem binaryPort_inj (a b : Nat) (ha : a < 65536) (hb : b < 65536) :
    binaryPort a = binaryPort b ↔ a = b := by
  constructor
  · intro h
    simp [binaryPort] at h
    omega
  · intro h; rw [h]

/-- Decoding a 2-byte port encoding round-trips below 2^16. -/
theorem decodePortBE_binaryPort (p : Nat) (hp : p < 65536) :
    decodePortBE (binaryPort p) = p := by
  simp [decodePortBE, binaryPort]
  omega

/-- C3 counterexample: for a process whose real uid is 1000 and effective
uid is 0, the installed rule compares socket owners against the real uid
(`syscall.Getuid`), so a TCP packet to port 80 owned by uid 0 — the
effective uid, which the claim says is excluded — is in fact redirected. -/
theorem C3_counterexample_effective_uid :
    ¬ (evalExprs (addOutputRuleExprs (NewManager ⟨1000, 0⟩ 12345 [80]) 80) regs0
          ⟨6, 0, 80, 0⟩
        = redirectRuleSpec (geteuid ⟨1000, 0⟩)
            ((NewManager ⟨1000, 0⟩ 12345 [80]).listenPort) 80 ⟨6, 0, 80, 0⟩) := by
  decide

/-- C3 (amended): for every target port, Setup's OUTPUT chain is a NAT
chain at the local-output hook holding a rule whose expression sequence —
TCP match, then socket-uid exclusion, then destination-port match, then
mark 0x1, then redirect — redirects exactly the TCP packets to that port
whose socket owner differs from the proxy process's REAL user id (the
value of `syscall.Getuid()`, not the effective uid), marking them 0x1 and
sending them to the configured listen port. -/
theorem C3_output_rule_semantics :
    ∀ (ctx : ProcessCtx) (listenPort : Nat) (targetPorts : List Nat) (q : Nat),
      q ∈ (NewManager ctx listenPort targetPorts).ports →
      (setupOutputChain.ctype = ChainType.nat ∧ setupOutputChain.hook = ChainHook.output)
      ∧ ((q, addOutputRuleExprs (NewManager ctx listenPort targetPorts) q)
          ∈ (NewManager ctx listenPort targetPorts).setupRules)
      ∧ (∀ pkt : Packet,
          pkt.l4proto < 256 → pkt.skuid < 4294967296 → pkt.dport < 65536 →
          evalExprs (addOutputRuleExprs (NewManager ctx listenPort targetPorts) q)
              regs0 pkt
            = redirectRuleSpec (getuid ctx % 4294967296) (listenPort % 65536) q pkt) := by
  intro ctx listenPort targetPorts q hq
  have hq16 : q < 65536 := by
    simp only [NewManager, List.mem_map] at hq
    obtain ⟨p, hp1, hp2⟩ := hq
    omega
  refine ⟨⟨rfl, rfl⟩, ?_, ?_⟩
  · simp only [Manager.setupRules, List.mem_map]
    exact ⟨q, hq, rfl⟩
  · intro pkt hproto huid hport
    have hm1 : pkt.l4proto % 256 = pkt.l4proto := Nat.mod_eq_of_lt hproto
    have hpu : getuid ctx % 4294967296 < 4294967296 := Nat.mod_lt _ (by norm_num)
    by_cases h1 : pkt.l4proto = 6
    · by_cases h2 : pkt.skuid = getuid ctx % 4294967296
      · simp [addOutputRuleExprs, evalExprs, updReg, metaValue, NewManager,
          redirectRuleSpec, getuid, hm1, h1, h2]
      · have hne : ¬ (binaryUint32 pkt.skuid = binaryUint32 (getuid ctx % 4294967296)) :=
          fun hc => h2 ((binaryUint32_inj _ _ huid hpu).mp hc)
        simp only [getuid] at hne h2
        by_cases h3 : pkt.dport = q
        · have hd : decodePortBE (binaryPort (listenPort % 65536)) = listenPort % 65536 :=
            decodePortBE_binaryPort _ (Nat.mod_lt _ (by norm_num))
          have hmark : decodeU32 (binaryUint32 fwMark) = 1 := by decide
          simp [addOutputRuleExprs, evalExprs, updReg, metaValue, NewManager,
            redirectRuleSpec, getuid, hm1, h1, h2, h3, hne, hd, hmark]
        · have hpne : ¬ (binaryPort pkt.dport = binaryPort q) :=
            fun hc => h3 ((binaryPort_inj _ _ hport hq16).mp hc)
          simp [addOutputRuleExprs, evalExprs, updReg, metaValue, NewManager,
            redirectRuleSpec, getuid, hm1, h1, h2, h3, hne, hpne]
    · simp [addOutputRuleExprs, evalExprs, updReg, metaValue, NewManager,
        redirectRuleSpec, getuid, hm1, h1]

/-- C3 witness: the amended theorem applied for a root process, target
port 80, and a TCP packet owned by uid 1000. -/
theorem C3_output_rule_semantics_witness :
    evalExprs (addOutputRuleExprs (NewManager ⟨0, 0⟩ 12345 [80, 443]) 80) regs0
        ⟨6, 1000, 80, 0⟩
      = redirectRuleSpec (getuid ⟨0, 0⟩ % 4294967296) (12345 % 65536) 80
          ⟨6, 1000, 80, 0⟩ :=
  (C3_output_rule_semantics ⟨0, 0⟩ 12345 [80, 443] 80 (by decide)).2.2
    ⟨6, 1000, 80, 0⟩ (by decide) (by decide) (by decide)

/-- C4 counterexample: on upstream status `204 No Content` — a 2xx status —
`connectHTTP` does not return the tunnel (it closes the connection and
errors), so "tunnel when and only when 2xx" fails at this input. -/
theorem C4_counterexample_204 :
    ¬ ((exceptIsOk (connectHTTPFinish ⟨204, "204 No Content"⟩ [] 0).1 = true) ↔
        (200 ≤ 204 ∧ 204 < 300)) := by
  decide

/-- C4 (amended): `connectHTTP` returns the tunnel exactly when the
response status code is 200 (`http.StatusOK`), not any 2xx; on every other
status it closes the upstream connection and returns an error containing
the upstream's status text. -/
theorem C4_connect_requires_status_200 :
    ∀ (resp : HTTPResponse) (payload : List Nat) (k : Nat),
      ((exceptIsOk (connectHTTPFinish resp payload k).1 = true) ↔ resp.statusCode = 200)
      ∧ (resp.statusCode ≠ 200 →
          connectHTTPFinish resp payload k
            = (Except.error ("CONNECT failed with status: " ++ resp.status), true)) := by
  intro resp payload k
  by_cases h : resp.statusCode = 200 <;> simp [connectHTTPFinish, h, exceptIsOk]

/-- C4 witness: the amended theorem applied at status 404. -/
theorem C4_connect_requires_status_200_witness :
    connectHTTPFinish ⟨404, "404 Not Found"⟩ [1, 2] 1
      = (Except.error ("CONNECT failed with status: " ++ "404 Not Found"), true) :=
  (C4_connect_requires_status_200 ⟨404, "404 Not Found"⟩ [1, 2] 1).2 (by decide)

/-- Reads conserve the byte stream: delivered bytes followed by what is
still buffered and still on the connection equal the original stream. -/
theorem bufferedConn_readMany_conserves :
    ∀ (sizes : List Nat) (c : bufferedConn),
      (bufferedConn.readMany c sizes).1
          ++ (bufferedConn.readMany c sizes).2.buffered
          ++ (bufferedConn.readMany c sizes).2.conn
        = c.buffered ++ c.conn := by
  intro sizes
  induction sizes with
  | nil => intro c; simp [bufferedConn.readMany]
  | cons n rest ih =>
    intro c
    by_cases h : c.buffered = []
    · have h2 := ih { buffered := ([] : List Nat), conn := c.conn.drop n }
      simp only [bufferedConn.readMany, bufferedConn.read, h]
      simp only [List.nil_append] at h2 ⊢
      simp [h, h2, List.append_assoc, List.take_append_drop]
    · have h2 := ih { buffered := c.buffered.drop n, conn := c.conn }
      simp only [bufferedConn.readMany, bufferedConn.read, h]
      simp only [List.append_assoc] at h2 ⊢
      simp [h, h2, ← List.append_assoc, List.take_append_drop]

/-- C5: the tunnel `connectHTTP` returns delivers exactly the bytes the
upstream sent after its response headers, in order, with no loss or
duplication — including the bytes buffered during header parsing: every
read schedule conserves the stream, and draining it yields the payload. -/
theorem C5_tunnel_preserves_buffered_bytes :
    ∀ (status : String) (payload : List Nat) (k : Nat) (sizes : List Nat)
      (t : bufferedConn),
      (connectHTTPFinish ⟨200, status⟩ payload k).1 = Except.ok t →
      ((bufferedConn.readMany t sizes).1
          ++ (bufferedConn.readMany t sizes).2.buffered
          ++ (bufferedConn.readMany t sizes).2.conn = payload)
      ∧ bufferedConn.readMany t [k, payload.length]
          = (payload, { buffered := [], conn := [] }) := by
  intro status payload k sizes t ht
  have h1 : t = { buffered := payload.take k, conn := payload.drop k } := by
    simp [connectHTTPFinish] at ht
    exact ht.symm
  subst h1
  constructor
  · rw [bufferedConn_readMany_conserves]
    exact List.take_append_drop k payload
  · by_cases h : payload.take k = []
    · rcases List.take_eq_nil_iff.mp h with hk | hp
      · subst hk
        simp [bufferedConn.readMany, bufferedConn.read]
      · subst hp
        simp [bufferedConn.readMany, bufferedConn.read]
    · simp only [bufferedConn.readMany, bufferedConn.read, h]
      simp only [if_pos h]
      have htk : (payload.take k).take k = payload.take k := by
        simp [List.take_take]
      have htd : (payload.take k).drop k = [] := by
        apply List.drop_eq_nil_of_le
        simp [List.length_take]
      have hdt : (payload.drop k).take payload.length = payload.drop k := by
        apply List.take_of_length_le
        simp [List.length_drop]
      have hdd : (payload.drop k).drop payload.length = [] := by
        apply List.drop_eq_nil_of_le
        simp [List.length_drop]
      simp [htk, htd, hdt, hdd, List.take_append_drop]

/-- C5 witness: the theorem applied at payload `[5,6,7]` with one byte
buffered and a single 2-byte read. -/
theorem C5_tunnel_preserves_buffered_bytes_witness :
    ((bufferedConn.readMany { buffered := [5], conn := [6, 7] } [2]).1
        ++ (bufferedConn.readMany { buffered := [5], conn := [6, 7] } [2]).2.buffered
        ++ (bufferedConn.readMany { buffered := [5], conn := [6, 7] } [2]).2.conn
      = [5, 6, 7])
    ∧ bufferedConn.readMany { buffered := [5], conn := [6, 7] } [1, 3]
        = ([5, 6, 7], { buffered := [], conn := [] }) :=
  C5_tunnel_preserves_buffered_bytes "200 Connection Established" [5, 6, 7] 1 [2]
    { buffered := [5], conn := [6, 7] } (by decide)

/-- C6: when the match result is policy REJECT, the handler's whole trace
is a single close of the client connection: no upstream or direct dial, no
relayed bytes. -/
theorem C6_reject_closes_without_dial :
    ∀ (hasUpstream : Bool) (dst : Addr) (lookup : Except Unit (List String))
      (m : Matcher) (dialOk : Bool),
      (Matcher.Match m (resolveDomain lookup) (some dst.ip)).policy = PolicyReject →
      handleConnection hasUpstream (Except.ok dst) lookup m dialOk
        = [Action.closeClient] := by
  intro hasUpstream dst lookup m dialOk hpol
  simp [handleConnection, hpol]

/-- C6 witness: the theorem applied to the rule list `[MATCH,REJECT]`. -/
theorem C6_reject_closes_without_dial_witness :
    handleConnection true (Except.ok { ip := [8, 8, 8, 8], port := 443 })
      (Except.error ())
      ⟨[{ type := RuleTypeMatch, value := "", policy := PolicyReject, network := none }]⟩
      true
      = [Action.closeClient] :=
  C6_reject_closes_without_dial true { ip := [8, 8, 8, 8], port := 443 }
    (Except.error ())
    ⟨[{ type := RuleTypeMatch, value := "", policy := PolicyReject, network := none }]⟩
    true (by decide)

/-- C8: `getOriginalDst` returns an address exactly when the IPv4 attempt
or, failing that, the IPv6 attempt succeeds — IPv4 taking precedence — and
returns the combined error exactly when both fail. -/
theorem C8_orig_dst_v4_then_v6 :
    ∀ (v4 v6 : Except Nat Addr),
      ((exceptIsOk (getOriginalDst (Except.ok ()) v4 v6) = true) ↔
        (exceptIsOk v4 = true ∨ exceptIsOk v6 = true))
      ∧ (∀ a, v4 = Except.ok a → getOriginalDst (Except.ok ()) v4 v6 = Except.ok a)
      ∧ (∀ e4 a, v4 = Except.error e4 → v6 = Except.ok a →
          getOriginalDst (Except.ok ()) v4 v6 = Except.ok a)
      ∧ (∀ e4 e6, v4 = Except.error e4 → v6 = Except.error e6 →
          getOriginalDst (Except.ok ()) v4 v6
            = Except.error "failed to get original destination for both IPv4 and IPv6") := by
  intro v4 v6
  cases v4 <;> cases v6 <;>
    simp [getOriginalDst, exceptIsOk]

/-- C8 witness: both getsockopt attempts fail (errnos 92 and 92), so the
combined error is returned. -/
theorem C8_orig_dst_v4_then_v6_witness :
    getOriginalDst (Except.ok ()) (Except.error 92) (Except.error 92)
      = Except.error "failed to get original destination for both IPv4 and IPv6" :=
  (C8_orig_dst_v4_then_v6 (Except.error 92) (Except.error 92)).2.2.2 92 92 rfl rfl

/-- C10: when the reverse-DNS lookup succeeds with at least one name, the
domain passed to the matcher is the first name with a single trailing dot
(if present) removed; on lookup failure or an empty name list it is the
empty string. -/
theorem C10_reverse_dns_domain :
    (∀ (name : String) (rest : List String),
      resolveDomain (Except.ok (name :: rest)) = stripTrailingDotSpec name)
    ∧ (∀ e : Unit, resolveDomain (Except.error e) = "")
    ∧ resolveDomain (Except.ok []) = ""
    ∧ (∀ s : String, stripTrailingDotSpec (s ++ ".") = s)
    ∧ (∀ s : String, hasSuffix s "." = false → stripTrailingDotSpec s = s) := by
  refine ⟨?_, ?_, rfl, ?_, ?_⟩
  · intro name rest
    obtain ⟨l⟩ := name
    induction l using List.reverseRecOn with
    | nil => rfl
    | append_singleton l a _ =>
      simp only [resolveDomain, stripTrailingDotSpec, hasSuffix]
      by_cases hb : a = '.'
      · simp [List.getLast?_concat, List.dropLast_concat, List.reverse_append,
          List.isPrefixOf, hb]
      · have hb2 : ¬ ('.' = a) := fun h => hb h.symm
        simp [List.getLast?_concat, List.dropLast_concat, List.reverse_append,
          List.isPrefixOf, hb, hb2]
  · intro e; rfl
  · intro s
    have hd : (s ++ ".").data = s.data ++ ['.'] := by
      simp [String.data_append]
    simp only [stripTrailingDotSpec, hasSuffix, hd]
    simp [List.isPrefixOf, List.dropLast_concat]
  · intro s h
    simp [stripTrailingDotSpec, h]

/-- C10 witness: the theorem applied to a lookup returning
`www.google.com.` (dot stripped) and to the dotless name (left as is). -/
theorem C10_reverse_dns_domain_witness :
    resolveDomain (Except.ok ["www.google.com.", "alt.example."])
        = stripTrailingDotSpec "www.google.com."
      ∧ stripTrailingDotSpec ("www.google.com" ++ ".") = "www.google.com"
      ∧ stripTrailingDotSpec "www.google.com" = "www.google.com" :=
  ⟨C10_reverse_dns_domain.1 "www.google.com." ["alt.example."],
   C10_reverse_dns_domain.2.2.2.1 "www.google.com",
   C10_reverse_dns_domain.2.2.2.2 "www.google.com" (by decide)⟩

/-- Channel-accounting invariant of the relay: buffered messages plus the
one the parent may have consumed equal the number of finished copiers. -/
theorem relay_channel_invariant :
    ∀ s : RelayState, RelayReachable s →
      s.doneCh + (if s.closedBoth then 1 else 0) = s.finishedCount := by
  intro s h
  induction h with
  | init => rfl
  | step s t hs hstep ih =>
    cases hstep with
    | finishAB b n r =>
      cases b <;> cases r <;>
        simp [RelayState.finishedCount] at ih ⊢ <;> omega
    | finishBA a n r =>
      cases a <;> cases r <;>
        simp [RelayState.finishedCount] at ih ⊢ <;> omega
    | recvAndClose a b n =>
      cases a <;> cases b <;>
        simp [RelayState.finishedCount] at ih ⊢ <;> omega

/-- C9: both copy directions run concurrently from the start; as soon as
either direction finishes, the teardown step (receive, return, close both
connections) is enabled without the other direction finishing — and a run
exists in which both ends are closed while one direction is still running;
conversely, teardown never happens before some direction has finished. -/
theorem C9_relay_concurrent_teardown :
    (RelayStep relayInit ⟨CopyState.finished, CopyState.running, 1, false⟩
      ∧ RelayStep relayInit ⟨CopyState.running, CopyState.finished, 1, false⟩)
    ∧ (∀ s : RelayState, RelayReachable s → s.closedBoth = false →
        (s.copyAB = CopyState.finished ∨ s.copyBA = CopyState.finished) →
        ∃ t : RelayState, RelayStep s t ∧ t.closedBoth = true)
    ∧ RelayReachable
        { copyAB := CopyState.finished, copyBA := CopyState.running, doneCh := 0,
          closedBoth := true }
    ∧ (∀ s : RelayState, RelayReachable s → s.closedBoth = true →
        s.copyAB = CopyState.finished ∨ s.copyBA = CopyState.finished) := by
  refine ⟨⟨RelayStep.finishAB CopyState.running 0 false,
           RelayStep.finishBA CopyState.running 0 false⟩, ?_, ?_, ?_⟩
  · intro s hreach hnc hfin
    have hinv := relay_channel_invariant s hreach
    obtain ⟨a, b, n, r⟩ := s
    simp_all only []
    subst hnc
    have hn : 1 ≤ n := by
      rcases hfin with hf | hf <;> subst hf <;>
        simp [RelayState.finishedCount] at hinv <;> omega
    obtain ⟨m, rfl⟩ : ∃ m, n = m + 1 := ⟨n - 1, by omega⟩
    exact ⟨⟨a, b, m, true⟩, RelayStep.recvAndClose a b m, rfl⟩
  · exact RelayReachable.step _ _
      (RelayReachable.step _ _ RelayReachable.init
        (RelayStep.finishAB CopyState.running 0 false))
      (RelayStep.recvAndClose CopyState.finished CopyState.running 0)
  · intro s hreach hc
    have hinv := relay_channel_invariant s hreach
    obtain ⟨a, b, n, r⟩ := s
    simp_all only []
    subst hc
    cases a with
    | finished => exact Or.inl rfl
    | running =>
      cases b with
      | finished => exact Or.inr rfl
      | running =>
        simp [RelayState.finishedCount] at hinv

/-- C9 witness: in the reachable state where the client-to-server copy has
finished and the other direction is still running, the teardown step is
enabled. -/
theorem C9_relay_concurrent_teardown_witness :
    ∃ t : RelayState,
      RelayStep ⟨CopyState.finished, CopyState.running, 1, false⟩ t
        ∧ t.closedBoth = true :=
  C9_relay_concurrent_teardown.2.1 ⟨CopyState.finished, CopyState.running, 1, false⟩
    (RelayReachable.step _ _ RelayReachable.init
      (RelayStep.finishAB CopyState.running 0 false))
    rfl (Or.inl rfl)

end Proxy
